import Mathlib

/-!
Verification development for the Frontier Designs Tranzport driver
(drivers/staging/frontier/tranzport.c).

The visible part of the source provides the module parameters and their
defaults, the device structure `usb_tranzport`, the transfer-abort routine
`usb_tranzport_abort_transfers`, the sysfs attribute macros
(`show_int` / `show_set_int`) and the status-dispatch head of
`usb_tranzport_interrupt_in_callback`.  The ring-buffer push/pop bodies and
the read/write/open/disconnect paths are not part of the visible source;
where a definition below depends on them, it is modelled from the spec and
its doc comment says so.
-/

set_option maxHeartbeats 1000000

namespace Tranzport

/-- One command frame: `struct tranzport_cmd { unsigned char cmd[8]; }`. -/
structure tranzport_cmd where
  cmd : List Nat
deriving DecidableEq

instance : Inhabited tranzport_cmd := ⟨⟨List.replicate 8 0⟩⟩

/-- The interrupt-in ring buffer.  The source keeps
`struct tranzport_cmd (*ring_buffer)[RING_BUFFER_SIZE]` together with
`unsigned int ring_head` and `unsigned int ring_tail` on the device
structure; here the backing array and the two indices are bundled.  The
indices are modelled as free-running counters; a counter addresses the slot
given by its value modulo `size`, `ring_head == ring_tail` means empty, and
the buffer holds `ring_head - ring_tail` frames (up to `size`). -/
structure RingBuffer (α : Type) where
  size : Nat
  buf : List α
  ring_head : Nat
  ring_tail : Nat
deriving DecidableEq

namespace RingBuffer

variable {α : Type}

/-- Modelled from the spec: `head == tail` means empty. -/
def is_empty (rb : RingBuffer α) : Bool :=
  rb.ring_head == rb.ring_tail

/-- Modelled from the spec: the buffer is full when it holds `size` frames. -/
def is_full (rb : RingBuffer α) : Bool :=
  rb.ring_head == rb.ring_tail + rb.size

/-- Modelled from the spec: the push body executed by the interrupt-in
callback is not in the visible source.  `push(frame)` never fails and never
blocks; if the buffer is full it advances the tail (dropping the oldest
frame), then writes the frame at the head slot and advances the head. -/
def push (rb : RingBuffer α) (f : α) : RingBuffer α :=
  let rb1 := if rb.is_full then { rb with ring_tail := rb.ring_tail + 1 } else rb
  { rb1 with
      buf := rb1.buf.set (rb1.ring_head % rb1.size) f,
      ring_head := rb1.ring_head + 1 }

/-- Modelled from the spec: the pop body executed by the read path is not in
the visible source.  `pop()` returns `none` if the buffer is empty;
otherwise it returns the frame at the tail slot and advances the tail. -/
def pop [Inhabited α] (rb : RingBuffer α) : Option α × RingBuffer α :=
  if rb.ring_head = rb.ring_tail then (none, rb)
  else (some (rb.buf.getD (rb.ring_tail % rb.size) default),
        { rb with ring_tail := rb.ring_tail + 1 })

/-- Push a whole sequence of frames, oldest first. -/
def pushAll (rb : RingBuffer α) (xs : List α) : RingBuffer α :=
  xs.foldl push rb

/-- Pop repeatedly with explicit fuel, collecting the returned frames. -/
def drainAux [Inhabited α] : RingBuffer α → Nat → List α
  | _, 0 => []
  | rb, n + 1 =>
    match rb.pop with
    | (some f, rb1) => f :: drainAux rb1 n
    | (none, _) => []

/-- Pop until the buffer is empty, collecting the returned frames. -/
def drain [Inhabited α] (rb : RingBuffer α) : List α :=
  drainAux rb (rb.ring_head - rb.ring_tail)

/-- A freshly allocated ring buffer of capacity `n`: indices zeroed, slots
holding an arbitrary initial value. -/
def init (n : Nat) (d : α) : RingBuffer α :=
  ⟨n, List.replicate n d, 0, 0⟩

/-- Well-formedness of a ring-buffer state: positive capacity, a backing
array of exactly `size` slots, and a tail counter that never passes the
head nor lags it by more than `size`. -/
abbrev WF (rb : RingBuffer α) : Prop :=
  0 < rb.size ∧ rb.buf.length = rb.size ∧
    rb.ring_tail ≤ rb.ring_head ∧ rb.ring_head ≤ rb.ring_tail + rb.size

/-- The sequence of frames currently held, oldest first: the slots addressed
by `ring_tail, ring_tail + 1, …, ring_head - 1`. -/
def absList [Inhabited α] (rb : RingBuffer α) : List α :=
  (List.range (rb.ring_head - rb.ring_tail)).map
    (fun k => rb.buf.getD ((rb.ring_tail + k) % rb.size) default)

end RingBuffer

/-- Abstract one `push` as an operation on the held-frame sequence: append,
dropping the oldest frame first when the buffer already holds `size`. -/
def ringStep {α : Type} (size : Nat) (q : List α) (f : α) : List α :=
  if q.length = size then q.drop 1 ++ [f] else q ++ [f]

/-- The last `n` elements of a list, in order. -/
def lastN {α : Type} (n : Nat) (l : List α) : List α :=
  l.drop (l.length - n)

/-- A ring-buffer operation: one producer push or one consumer pop. -/
inductive RingOp (α : Type) where
  | push (f : α)
  | pop

/-- Apply one ring-buffer operation. -/
def applyOp {α : Type} [Inhabited α] (rb : RingBuffer α) : RingOp α → RingBuffer α
  | RingOp.push f => rb.push f
  | RingOp.pop => (rb.pop).2

/-- Apply a sequence of ring-buffer operations, oldest first. -/
def applyOps {α : Type} [Inhabited α] (rb : RingBuffer α) (ops : List (RingOp α)) :
    RingBuffer α :=
  ops.foldl applyOp rb

/-- Compile-time constant RING_BUFFER_SIZE. -/
def RING_BUFFER_SIZE : Nat := 1000

/-- Compile-time constant WRITE_BUFFER_SIZE. -/
def WRITE_BUFFER_SIZE : Nat := 34

/-- Compile-time constant TRANZPORT_USB_TIMEOUT. -/
def TRANZPORT_USB_TIMEOUT : Nat := 10

/-- Compile-time constant TRANZPORT_DEBUG. -/
def TRANZPORT_DEBUG : Nat := 0

/-- Module parameter `debug`, initialised to TRANZPORT_DEBUG. -/
def debug : Nat := TRANZPORT_DEBUG

/-- Module parameter `ring_buffer_size`, initialised to RING_BUFFER_SIZE. -/
def ring_buffer_size : Nat := RING_BUFFER_SIZE

/-- Module parameter `write_buffer_size`, initialised to WRITE_BUFFER_SIZE. -/
def write_buffer_size : Nat := WRITE_BUFFER_SIZE

/-- Module parameter `min_interrupt_in_interval`, initialised to
TRANZPORT_USB_TIMEOUT. -/
def min_interrupt_in_interval : Nat := TRANZPORT_USB_TIMEOUT

/-- Module parameter `min_interrupt_out_interval`, initialised to
TRANZPORT_USB_TIMEOUT. -/
def min_interrupt_out_interval : Nat := TRANZPORT_USB_TIMEOUT

/-- Error numbers used by the driver (Linux errno values). -/
def ENOENT : Int := 2

/-- errno ECONNRESET. -/
def ECONNRESET : Int := 104

/-- errno ESHUTDOWN. -/
def ESHUTDOWN : Int := 108

/-- errno EINVAL. -/
def EINVAL : Int := 22

/-- The device-specific structure `struct usb_tranzport`.  The mutex, the
wait queues, the urb pointers and the transfer buffers are host-runtime
objects without driver-visible state of their own and are not represented;
the usb interface pointer `intf` is modelled by whether it is non-NULL.
`ring_buffer`, `ring_head` and `ring_tail` are bundled in the `RingBuffer`
component.  The `int` / `unsigned char` fields are modelled as `Nat`
(writes to the `unsigned char` status fields truncate modulo 256 at the
write site). -/
structure usb_tranzport where
  intf : Bool
  open_count : Nat
  ring_buffer : RingBuffer tranzport_cmd
  interrupt_in_interval : Nat
  interrupt_in_endpoint_size : Nat
  interrupt_in_running : Nat
  interrupt_in_done : Nat
  interrupt_out_interval : Nat
  interrupt_out_endpoint_size : Nat
  interrupt_out_busy : Nat
  enable : Nat
  offline : Nat
  compress_wheel : Nat
deriving DecidableEq

/-- Direct translation of `usb_tranzport_abort_transfers` (source lines
164-175).  `usb_kill_urb` is a host USB-stack call that cancels the urb; it
modifies no field of the device structure itself, so the translation records
which urbs were killed.  Returns the updated device together with the
killed-interrupt-in and killed-interrupt-out indicators. -/
def usb_tranzport_abort_transfers (dev : usb_tranzport) :
    usb_tranzport × Bool × Bool :=
  let p1 : usb_tranzport × Bool :=
    if dev.interrupt_in_running ≠ 0 then
      ({ dev with interrupt_in_running := 0 }, dev.intf)
    else (dev, false)
  let kout : Bool := if p1.1.interrupt_out_busy ≠ 0 then p1.1.intf else false
  (p1.1, p1.2, kout)

/-- What the interrupt-in completion callback does next with the inbound
transfer: stop resubmitting (quiesce) or resubmit it immediately. -/
inductive CallbackAction where
  | quiesce
  | resubmit
deriving DecidableEq

/-- Result of one run of the interrupt-in completion callback. -/
structure CallbackResult where
  dev : usb_tranzport
  action : CallbackAction
  warned : Bool
deriving DecidableEq

/-- The status/length dispatch of `usb_tranzport_interrupt_in_callback`
(source lines 238-269): a device-gone status (-ENOENT, -ECONNRESET or
-ESHUTDOWN) goes to the exit label; any other nonzero status logs via
dbg_info and goes to the resubmit label; a zero-status completion whose
actual length is not 8 logs a warning (dev_warn) and pushes nothing; an
8-byte frame is pushed into the ring buffer.  Modelled from the spec: the
bodies of the resubmit and exit labels and the push statement are past the
visible source; per the spec the exit path stops resubmitting and marks the
handle quiescent, while every other path resubmits the inbound transfer
immediately, and every path marks completion (`interrupt_in_done`) and wakes
the read wait queue. -/
def usb_tranzport_interrupt_in_callback (dev : usb_tranzport) (status : Int)
    (actual_length : Nat) (frame : tranzport_cmd) : CallbackResult :=
  if status ≠ 0 then
    if status = -ENOENT ∨ status = -ECONNRESET ∨ status = -ESHUTDOWN then
      { dev := { dev with interrupt_in_done := 1 },
        action := CallbackAction.quiesce, warned := false }
    else
      { dev := { dev with interrupt_in_done := 1 },
        action := CallbackAction.resubmit, warned := false }
  else if actual_length ≠ 8 then
    { dev := { dev with interrupt_in_done := 1 },
      action := CallbackAction.resubmit, warned := true }
  else
    { dev := { dev with ring_buffer := dev.ring_buffer.push frame,
                        interrupt_in_done := 1 },
      action := CallbackAction.resubmit, warned := false }

/-- Iterated callback device state: feed `n` completions with the same
status/length/frame through the callback, threading the device. -/
def callbackIter (status : Int) (actual_length : Nat) (frame : tranzport_cmd)
    (n : Nat) (dev : usb_tranzport) : usb_tranzport :=
  Nat.iterate
    (fun d => (usb_tranzport_interrupt_in_callback d status actual_length frame).dev)
    n dev

/-- The show routine generated by `show_int(enable)` / the macro
`show_##value`: sprintf("%d\n", t->value), modelled as the numeric value. -/
def show_enable (t : usb_tranzport) : Nat := t.enable

/-- The show routine generated by `show_int(offline)`. -/
def show_offline (t : usb_tranzport) : Nat := t.offline

/-- The show routine generated by `show_set_int(compress_wheel)`. -/
def show_compress_wheel (t : usb_tranzport) : Nat := t.compress_wheel

/-- Decimal digit test. -/
def isDecDigit (c : Char) : Bool := '0' ≤ c && c ≤ '9'

/-- The kernel helper simple_strtoul with base 10 (host library, not in
this file's source): consume the leading run of decimal digits, returning
the accumulated value and the unconsumed remainder of the input. -/
def simple_strtoul (cs : List Char) (acc : Nat) : Nat × List Char :=
  match cs with
  | [] => (acc, [])
  | c :: rest =>
    if isDecDigit c then simple_strtoul rest (acc * 10 + (c.toNat - 48))
    else (acc, c :: rest)

/-- The kernel helper strict_strtoul(cp, 10, &res) (host library, not in
this file's source): succeed only when the input starts with at least one
decimal digit and nothing but an optional single trailing newline follows
the digit run; otherwise report failure (-EINVAL), modelled as `none`. -/
def strict_strtoul (s : String) : Option Nat :=
  match s.data with
  | [] => none
  | c :: rest =>
    if isDecDigit c then
      match simple_strtoul (c :: rest) 0 with
      | (v, []) => some v
      | (v, [t]) => if t = '\n' then some v else none
      | _ => none
    else none

/-- The store routine generated by `show_set_int(compress_wheel)` (source
lines 187-207): if strict_strtoul rejects the input, return -EINVAL and
leave the field untouched; otherwise assign the parsed value to the
`unsigned char` field `compress_wheel` (truncating modulo 256) and return
count, modelled as the input length. -/
def set_compress_wheel (t : usb_tranzport) (buf : String) :
    usb_tranzport × Except Int Nat :=
  match strict_strtoul buf with
  | none => (t, Except.error (-EINVAL))
  | some temp => ({ t with compress_wheel := temp % 256 }, Except.ok buf.length)

/-- Permission bits S_IRUGO (owner/group/other readable). -/
def S_IRUGO : Nat := 0o444

/-- Permission bit S_IWUSR (owner writable). -/
def S_IWUSR : Nat := 0o200

/-- A sysfs device attribute as produced by
DEVICE_ATTR(name, mode, show, store): mode bits, the show routine, and the
optional store routine (NULL modelled as `none`). -/
structure DeviceAttribute where
  mode : Nat
  show_fn : usb_tranzport → Nat
  store_fn : Option (usb_tranzport → String → usb_tranzport × Except Int Nat)

/-- DEVICE_ATTR(enable, S_IRUGO, show_enable, NULL), from show_int(enable). -/
def dev_attr_enable : DeviceAttribute := ⟨S_IRUGO, show_enable, none⟩

/-- DEVICE_ATTR(offline, S_IRUGO, show_offline, NULL), from
show_int(offline). -/
def dev_attr_offline : DeviceAttribute := ⟨S_IRUGO, show_offline, none⟩

/-- DEVICE_ATTR(compress_wheel, S_IWUSR | S_IRUGO, show_compress_wheel,
set_compress_wheel), from show_set_int(compress_wheel). -/
def dev_attr_compress_wheel : DeviceAttribute :=
  ⟨S_IWUSR ||| S_IRUGO, show_compress_wheel, some set_compress_wheel⟩

/-- State of one user thread engaged in a read or write call. -/
inductive ProcState where
  | running
  | blocked
  | doneOk
  | doneErr
deriving DecidableEq

/-- The device handle together with one reader thread and one writer
thread. -/
structure TranzSys where
  dev : usb_tranzport
  reader : ProcState
  writer : ProcState
deriving DecidableEq

/-- Modelled from the spec: the body of the read call is past the visible
source.  A read fails with a device-unavailable error when the interface is
gone; otherwise it pops and returns a frame when one is buffered; otherwise
the caller blocks on the read wait queue. -/
def read_check (s : TranzSys) : TranzSys :=
  if s.dev.intf = false then { s with reader := ProcState.doneErr }
  else
    match s.dev.ring_buffer.pop with
    | (some _, rb1) =>
      { s with dev := { s.dev with ring_buffer := rb1 },
               reader := ProcState.doneOk }
    | (none, _) => { s with reader := ProcState.blocked }

/-- Modelled from the spec: the body of the write call is past the visible
source.  A write fails with a device-unavailable error when the interface is
gone; it blocks while the single outbound transfer slot is busy; otherwise
it claims the slot and submits. -/
def write_check (s : TranzSys) : TranzSys :=
  if s.dev.intf = false then { s with writer := ProcState.doneErr }
  else if s.dev.interrupt_out_busy ≠ 0 then { s with writer := ProcState.blocked }
  else
    { s with dev := { s.dev with interrupt_out_busy := 1 },
             writer := ProcState.doneOk }

/-- Modelled from the spec: wake_up_interruptible on both wait queues; a
blocked reader or writer wakes and re-runs its wait check. -/
def wake_waiters (s : TranzSys) : TranzSys :=
  let s1 := if s.reader = ProcState.blocked then read_check s else s
  if s1.writer = ProcState.blocked then write_check s1 else s1

/-- Modelled from the spec: teardown (disconnect, or the final close) is past
the visible source.  It aborts the outstanding transfers through
`usb_tranzport_abort_transfers` (source), marks the interface gone, and
wakes every blocked reader and writer.  Returns the resulting system state
together with the killed-urb indicators of the abort. -/
def teardown (s : TranzSys) : TranzSys × Bool × Bool :=
  let r := usb_tranzport_abort_transfers s.dev
  let dev2 := { r.1 with intf := false }
  (wake_waiters { s with dev := dev2 }, r.2)

/-- A concrete ring buffer of capacity 3, used for closed instances. -/
def rb0 : RingBuffer tranzport_cmd := RingBuffer.init 3 default

/-- A concrete device handle, used for closed instances. -/
def tranzport0 : usb_tranzport :=
  { intf := true, open_count := 1, ring_buffer := rb0,
    interrupt_in_interval := 10, interrupt_in_endpoint_size := 8,
    interrupt_in_running := 1, interrupt_in_done := 0,
    interrupt_out_interval := 10, interrupt_out_endpoint_size := 8,
    interrupt_out_busy := 1, enable := 1, offline := 0, compress_wheel := 1 }

/-- A concrete system state with a blocked reader and a blocked writer. -/
def sys0 : TranzSys :=
  { dev := tranzport0, reader := ProcState.blocked, writer := ProcState.blocked }

/-- Two slots of a window shorter than the ring size never collide modulo
the ring size. -/
theorem mod_window_ne {size t m k : Nat} (hm : m < size) (hk : k < m) :
    (t + k) % size ≠ (t + m) % size := by
  intro h
  have hle : t + k ≤ t + m := by omega
  have hdvd : size ∣ t + m - (t + k) := (Nat.modEq_iff_dvd' hle).mp h
  have h2 : t + m - (t + k) = m - k := by omega
  rw [h2] at hdvd
  have := Nat.le_of_dvd (by omega) hdvd
  omega

namespace RingBuffer

variable {α : Type}

theorem is_full_iff (rb : RingBuffer α) :
    rb.is_full = true ↔ rb.ring_head = rb.ring_tail + rb.size := by
  simp [is_full]

theorem push_eq_of_full (rb : RingBuffer α) (f : α) (h : rb.is_full = true) :
    rb.push f = ⟨rb.size, rb.buf.set (rb.ring_head % rb.size) f,
      rb.ring_head + 1, rb.ring_tail + 1⟩ := by
  simp [push, h]

theorem push_eq_of_not_full (rb : RingBuffer α) (f : α) (h : rb.is_full = false) :
    rb.push f = ⟨rb.size, rb.buf.set (rb.ring_head % rb.size) f,
      rb.ring_head + 1, rb.ring_tail⟩ := by
  simp [push, h]

theorem push_size (rb : RingBuffer α) (f : α) : (rb.push f).size = rb.size := by
  by_cases h : rb.is_full
  · rw [push_eq_of_full rb f h]
  · rw [push_eq_of_not_full rb f (by simpa using h)]

theorem WF_push (rb : RingBuffer α) (f : α) (h : WF rb) : WF (rb.push f) := by
  obtain ⟨hsz, hlen, h1, h2⟩ := h
  by_cases hf : rb.is_full = true
  · have hfull := (is_full_iff rb).mp hf
    rw [push_eq_of_full rb f hf]
    exact ⟨hsz, by simp [hlen], by dsimp only; omega, by dsimp only; omega⟩
  · have : rb.ring_head ≠ rb.ring_tail + rb.size := fun hh =>
      (by simpa [hf] using (is_full_iff rb).mpr hh : False)
    rw [push_eq_of_not_full rb f (by simpa using hf)]
    exact ⟨hsz, by simp [hlen], by dsimp only; omega, by dsimp only; omega⟩

theorem absList_length [Inhabited α] (rb : RingBuffer α) :
    (absList rb).length = rb.ring_head - rb.ring_tail := by
  simp [absList]

theorem absList_getElem [Inhabited α] (rb : RingBuffer α) (i : Nat)
    (h : i < (absList rb).length) :
    (absList rb)[i] = rb.buf.getD ((rb.ring_tail + i) % rb.size) default := by
  simp [absList]

theorem absList_push [Inhabited α] (rb : RingBuffer α) (f : α) (h : WF rb) :
    absList (rb.push f) = ringStep rb.size (absList rb) f := by
  obtain ⟨hsz, hlen, h1, h2⟩ := h
  by_cases hf : rb.is_full = true
  · have hfull := (is_full_iff rb).mp hf
    rw [push_eq_of_full rb f hf]
    rw [ringStep, if_pos (by rw [absList_length]; omega)]
    apply List.ext_getElem
    · simp [absList_length, List.length_append, List.length_drop]
      omega
    · intro i hL hR
      have hiL : i < rb.size := by
        simp [absList_length] at hL
        omega
      have hset_len : ∀ j, j % rb.size < (rb.buf.set (rb.ring_head % rb.size) f).length := by
        intro j
        simp only [List.length_set, hlen]
        exact Nat.mod_lt _ hsz
      rw [absList_getElem]
      simp only []
      rw [List.getD_eq_getElem _ _ (hset_len _)]
      by_cases hi : i < rb.size - 1
      · have hne : rb.ring_head % rb.size ≠ (rb.ring_tail + 1 + i) % rb.size := by
          have e1 : rb.ring_head % rb.size = (rb.ring_tail + 0) % rb.size := by
            rw [hfull]
            simp [Nat.add_mod_right]
          have e2 : rb.ring_tail + 1 + i = rb.ring_tail + (1 + i) := by omega
          rw [e1, e2]
          exact mod_window_ne (by omega) (by omega)
        rw [List.getElem_set_ne hne]
        have hdroplen : i < ((absList rb).drop 1).length := by
          simp [absList_length, List.length_drop]; omega
        rw [List.getElem_append_left hdroplen]
        rw [List.getElem_drop]
        rw [absList_getElem]
        have : rb.ring_tail + (1 + i) = rb.ring_tail + 1 + i := by omega
        rw [this]
        exact (List.getD_eq_getElem rb.buf default
          (by rw [hlen]; exact Nat.mod_lt _ hsz)).symm
      · have hieq : i = rb.size - 1 := by omega
        have e3 : rb.ring_tail + 1 + i = rb.ring_head := by omega
        rw [e3, List.getElem_set_self]
        have hdroplen : ((absList rb).drop 1).length ≤ i := by
          simp [absList_length, List.length_drop]; omega
        rw [List.getElem_append_right hdroplen]
        simp
  · have hnotfull : rb.ring_head ≠ rb.ring_tail + rb.size := fun hh =>
      (by simpa [hf] using (is_full_iff rb).mpr hh : False)
    rw [push_eq_of_not_full rb f (by simpa using hf)]
    rw [ringStep, if_neg (by rw [absList_length]; omega)]
    apply List.ext_getElem
    · simp [absList_length, List.length_append]
      omega
    · intro i hL hR
      have hiL : i < rb.ring_head - rb.ring_tail + 1 := by
        simp [absList_length] at hL
        omega
      have hset_len : ∀ j, j % rb.size < (rb.buf.set (rb.ring_head % rb.size) f).length := by
        intro j
        simp only [List.length_set, hlen]
        exact Nat.mod_lt _ hsz
      rw [absList_getElem]
      simp only []
      rw [List.getD_eq_getElem _ _ (hset_len _)]
      by_cases hi : i < rb.ring_head - rb.ring_tail
      · have hne : rb.ring_head % rb.size ≠ (rb.ring_tail + i) % rb.size := by
          have e1 : rb.ring_head = rb.ring_tail + (rb.ring_head - rb.ring_tail) := by omega
          rw [e1]
          exact (mod_window_ne (by omega) (by omega)).symm
        rw [List.getElem_set_ne hne]
        have habslen : i < (absList rb).length := by
          simp [absList_length]; omega
        rw [List.getElem_append_left habslen]
        rw [absList_getElem]
        exact (List.getD_eq_getElem rb.buf default
          (by rw [hlen]; exact Nat.mod_lt _ hsz)).symm
      · have hieq : i = rb.ring_head - rb.ring_tail := by omega
        have e3 : rb.ring_tail + i = rb.ring_head := by omega
        rw [e3, List.getElem_set_self]
        have habslen : (absList rb).length ≤ i := by
          simp [absList_length]; omega
        rw [List.getElem_append_right habslen]
        simp

theorem WF_pop [Inhabited α] (rb : RingBuffer α) (h : WF rb) : WF (rb.pop).2 := by
  obtain ⟨hsz, hlen, h1, h2⟩ := h
  unfold pop
  by_cases he : rb.ring_head = rb.ring_tail
  · rw [if_pos he]
    exact ⟨hsz, hlen, h1, h2⟩
  · rw [if_neg he]
    exact ⟨hsz, hlen, by dsimp only; omega, by dsimp only; omega⟩

theorem drainAux_eq_absList [Inhabited α] :
    ∀ (n : Nat) (rb : RingBuffer α), WF rb → rb.ring_head - rb.ring_tail = n →
      drainAux rb n = absList rb := by
  intro n
  induction n with
  | zero =>
    intro rb _ hn
    simp [drainAux, absList, hn]
  | succ n ih =>
    intro rb hwf hn
    obtain ⟨hsz, hlen, h1, h2⟩ := hwf
    have hne : ¬ rb.ring_head = rb.ring_tail := by omega
    have hpop : rb.pop = (some (rb.buf.getD (rb.ring_tail % rb.size) default),
        { rb with ring_tail := rb.ring_tail + 1 }) := by
      rw [pop, if_neg hne]
    have hwf1 : WF ({ rb with ring_tail := rb.ring_tail + 1 } : RingBuffer α) :=
      ⟨hsz, hlen, by dsimp only; omega, by dsimp only; omega⟩
    rw [drainAux, hpop]
    dsimp only
    rw [ih _ hwf1 (by dsimp only; omega)]
    apply List.ext_getElem
    · simp [absList_length]
      omega
    · intro i hL hR
      rw [absList_getElem]
      cases i with
      | zero =>
        simp
      | succ j =>
        have hj : j < (absList ({ rb with ring_tail := rb.ring_tail + 1 } : RingBuffer α)).length := by
          simp [absList_length] at hL ⊢
          omega
        rw [List.getElem_cons_succ, absList_getElem]
        have : rb.ring_tail + (j + 1) = rb.ring_tail + 1 + j := by omega
        simp only []
        rw [this]

theorem drain_eq_absList [Inhabited α] (rb : RingBuffer α) (h : WF rb) :
    rb.drain = absList rb :=
  drainAux_eq_absList _ rb h rfl

theorem pushAll_spec [Inhabited α] :
    ∀ (xs : List α) (rb : RingBuffer α), WF rb →
      WF (pushAll rb xs) ∧ (pushAll rb xs).size = rb.size ∧
        absList (pushAll rb xs) = List.foldl (ringStep rb.size) (absList rb) xs := by
  intro xs
  induction xs with
  | nil =>
    intro rb h
    exact ⟨h, rfl, rfl⟩
  | cons f xs ih =>
    intro rb h
    have hw := WF_push rb f h
    obtain ⟨hwf, hsz, habs⟩ := ih (rb.push f) hw
    have e : pushAll rb (f :: xs) = pushAll (rb.push f) xs := by
      simp [pushAll]
    refine ⟨by rw [e]; exact hwf, by rw [e, hsz, push_size], ?_⟩
    rw [e, habs, push_size, absList_push rb f h, List.foldl_cons]

end RingBuffer

theorem WF_applyOps {α : Type} [Inhabited α] :
    ∀ (ops : List (RingOp α)) (rb : RingBuffer α), RingBuffer.WF rb →
      RingBuffer.WF (applyOps rb ops) := by
  intro ops
  induction ops with
  | nil => intro rb h; exact h
  | cons op ops ih =>
    intro rb h
    have e : applyOps rb (op :: ops) = applyOps (applyOp rb op) ops := by
      simp [applyOps]
    rw [e]
    apply ih
    cases op with
    | push f => exact RingBuffer.WF_push rb f h
    | pop => exact RingBuffer.WF_pop rb h

theorem lastN_drop_front {α : Type} (l ys : List α) (n k : Nat)
    (h : n ≤ l.length - k + ys.length) :
    lastN n (l.drop k ++ ys) = lastN n (l ++ ys) := by
  unfold lastN
  by_cases hn : n ≤ ys.length
  · have e1 : (l.drop k ++ ys).length - n = (l.drop k).length + (ys.length - n) := by
      simp [List.length_append, List.length_drop]
      omega
    have e2 : (l ++ ys).length - n = l.length + (ys.length - n) := by
      simp [List.length_append]
      omega
    rw [e1, e2, List.drop_append, List.drop_append]
  · push_neg at hn
    have e1 : (l ++ ys).length - n = l.length - (n - ys.length) := by
      simp [List.length_append]
      omega
    have e2 : (l.drop k ++ ys).length - n = l.length - k - (n - ys.length) := by
      simp [List.length_append, List.length_drop]
      omega
    rw [e1, e2]
    rw [List.drop_append_of_le_length (by omega : l.length - (n - ys.length) ≤ l.length)]
    rw [List.drop_append_of_le_length
      (by simp [List.length_drop] : l.length - k - (n - ys.length) ≤ (l.drop k).length)]
    rw [List.drop_drop]
    have : k + (l.length - k - (n - ys.length)) = l.length - (n - ys.length) := by omega
    rw [this]

theorem foldl_ringStep {α : Type} (n : Nat) (hn : 0 < n) :
    ∀ (xs q : List α), q.length ≤ n →
      List.foldl (ringStep n) q xs = lastN n (q ++ xs) := by
  intro xs
  induction xs with
  | nil =>
    intro q hq
    simp [lastN, Nat.sub_eq_zero_of_le hq]
  | cons f xs ih =>
    intro q hq
    rw [List.foldl_cons]
    have hstep_len : (ringStep n q f).length ≤ n := by
      unfold ringStep
      split
      · simp [List.length_append, List.length_drop]
        omega
      · simp [List.length_append]
        omega
    rw [ih (ringStep n q f) hstep_len]
    by_cases hfull : q.length = n
    · have h1 : ringStep n q f = (q ++ [f]).drop 1 := by
        unfold ringStep
        rw [if_pos hfull, List.drop_append_of_le_length (by omega)]
      rw [h1]
      rw [lastN_drop_front (q ++ [f]) xs n 1 (by simp [List.length_append]; omega)]
      rw [List.append_assoc]
      simp
    · have h1 : ringStep n q f = q ++ [f] := by
        unfold ringStep
        rw [if_neg hfull]
      rw [h1, List.append_assoc]
      simp

/-- C2: for every sequence of pushes whose length exceeds the ring capacity
N, push never fails or blocks (it is a total state transformer); a full
buffer drops its oldest frame before accepting the new one, so draining
afterwards yields exactly the most recent N frames in arrival order:
`xs.drop (xs.length - N)`. -/
theorem ring_push_overflow_keeps_last (α : Type) [Inhabited α] (d : α) (N : Nat)
    (hN : 0 < N) (xs : List α) (hlen : N < xs.length) :
    ((RingBuffer.init N d).pushAll xs).drain = xs.drop (xs.length - N) := by
  have hwf : RingBuffer.WF (RingBuffer.init N d) :=
    ⟨hN, by simp [RingBuffer.init], Nat.le_refl 0, by simp [RingBuffer.init]⟩
  obtain ⟨hwf2, hsz, habs⟩ := RingBuffer.pushAll_spec xs _ hwf
  rw [RingBuffer.drain_eq_absList _ hwf2, habs]
  have h0 : RingBuffer.absList (RingBuffer.init N d) = ([] : List α) := by
    simp [RingBuffer.absList, RingBuffer.init]
  rw [h0]
  rw [foldl_ringStep ((RingBuffer.init N d).size) (by simpa [RingBuffer.init] using hN)
    xs [] (by simp)]
  simp [lastN, RingBuffer.init]

/-- C2 witness: capacity 3, pushing the four frames 10, 20, 30, 40 and then
draining yields the most recent three, 20, 30, 40 — the oldest frame 10 is
dropped. -/
theorem ring_push_overflow_keeps_last_witness :
    0 < 3 ∧ 3 < ([10, 20, 30, 40] : List Nat).length ∧
      ((RingBuffer.init 3 (0 : Nat)).pushAll [10, 20, 30, 40]).drain =
        [10, 20, 30, 40].drop (([10, 20, 30, 40] : List Nat).length - 3) ∧
      ([10, 20, 30, 40] : List Nat).drop (([10, 20, 30, 40] : List Nat).length - 3) =
        [20, 30, 40] :=
  ⟨by decide, by decide,
    ring_push_overflow_keeps_last Nat 0 3 (by decide) [10, 20, 30, 40] (by decide),
    by decide⟩

/-- C5: pushing a frame onto an empty ring buffer and then popping returns
exactly that frame. -/
theorem ring_push_pop_roundtrip (α : Type) [Inhabited α] (rb : RingBuffer α)
    (f : α) (h : RingBuffer.WF rb) (he : rb.is_empty = true) :
    ((rb.push f).pop).1 = some f := by
  obtain ⟨hsz, hlen, h1, h2⟩ := h
  have ht : rb.ring_head = rb.ring_tail := by
    simpa [RingBuffer.is_empty] using he
  have hnf : rb.is_full = false := by
    simp [RingBuffer.is_full, ht]
    omega
  rw [RingBuffer.push_eq_of_not_full rb f hnf]
  have hne : ¬ (rb.ring_head + 1 = rb.ring_tail) := by omega
  have hb : (rb.buf.set (rb.ring_head % rb.size) f).getD (rb.ring_tail % rb.size) default
      = f := by
    rw [← ht]
    have hlt : rb.ring_head % rb.size < (rb.buf.set (rb.ring_head % rb.size) f).length := by
      simp only [List.length_set, hlen]
      exact Nat.mod_lt _ hsz
    rw [List.getD_eq_getElem _ _ hlt]
    exact List.getElem_set_self _
  rw [RingBuffer.pop, if_neg hne]
  simpa using hb

/-- C5 witness: pushing frame 7 onto a fresh empty buffer of capacity 3 and
popping returns 7. -/
theorem ring_push_pop_roundtrip_witness :
    RingBuffer.WF (RingBuffer.init 3 (0 : Nat)) ∧
      (RingBuffer.init 3 (0 : Nat)).is_empty = true ∧
      (((RingBuffer.init 3 (0 : Nat)).push 7).pop).1 = some 7 :=
  ⟨by decide, by decide,
    ring_push_pop_roundtrip Nat (RingBuffer.init 3 0) 7 (by decide) (by decide)⟩

/-- C6: after any sequence of push and pop operations starting from a fresh
buffer, `is_empty` is true exactly when `ring_head = ring_tail`, and exactly
when the buffer holds no frames (draining yields nothing — equivalently, no
successful push has occurred whose frame is still undrained). -/
theorem ring_is_empty_iff (α : Type) [Inhabited α] (d : α) (N : Nat) (hN : 0 < N)
    (ops : List (RingOp α)) :
    ((applyOps (RingBuffer.init N d) ops).is_empty = true ↔
        (applyOps (RingBuffer.init N d) ops).ring_head =
          (applyOps (RingBuffer.init N d) ops).ring_tail) ∧
      ((applyOps (RingBuffer.init N d) ops).is_empty = true ↔
        (applyOps (RingBuffer.init N d) ops).drain = []) := by
  have hwf : RingBuffer.WF (applyOps (RingBuffer.init N d) ops) := by
    apply WF_applyOps
    exact ⟨hN, by simp [RingBuffer.init], Nat.le_refl 0, by simp [RingBuffer.init]⟩
  obtain ⟨hsz, hlen, h1, h2⟩ := hwf
  constructor
  · simp [RingBuffer.is_empty]
  · rw [RingBuffer.drain_eq_absList _ ⟨hsz, hlen, h1, h2⟩]
    rw [RingBuffer.is_empty, beq_iff_eq]
    constructor
    · intro h
      have : (RingBuffer.absList (applyOps (RingBuffer.init N d) ops)).length = 0 := by
        rw [RingBuffer.absList_length]
        omega
      exact List.eq_nil_of_length_eq_zero this
    · intro h
      have := congrArg List.length h
      rw [RingBuffer.absList_length] at this
      simp at this
      omega

/-- C6 witness: with capacity 2 and the operation sequence push 5 then pop,
the resulting buffer is empty, its head equals its tail, and it drains to
nothing. -/
theorem ring_is_empty_iff_witness :
    0 < 2 ∧
      (((applyOps (RingBuffer.init 2 (0 : Nat)) [RingOp.push 5, RingOp.pop]).is_empty = true ↔
          (applyOps (RingBuffer.init 2 (0 : Nat)) [RingOp.push 5, RingOp.pop]).ring_head =
            (applyOps (RingBuffer.init 2 (0 : Nat)) [RingOp.push 5, RingOp.pop]).ring_tail) ∧
        ((applyOps (RingBuffer.init 2 (0 : Nat)) [RingOp.push 5, RingOp.pop]).is_empty = true ↔
          (applyOps (RingBuffer.init 2 (0 : Nat)) [RingOp.push 5, RingOp.pop]).drain = [])) :=
  ⟨by decide, ring_is_empty_iff Nat 0 2 (by decide) [RingOp.push 5, RingOp.pop]⟩

/-- C8: the load-time configuration defaults are ring buffer capacity 1000
frames, write buffer size 34 bytes, minimum inbound and outbound poll
interval 10 ms each, and debug verbosity off (0). -/
theorem module_parameter_defaults :
    ring_buffer_size = 1000 ∧ write_buffer_size = 34 ∧
      min_interrupt_in_interval = 10 ∧ min_interrupt_out_interval = 10 ∧
      debug = 0 :=
  ⟨rfl, rfl, rfl, rfl, rfl⟩

/-- C7: `enable` and `offline` are exposed readable with no setter and no
write mode bit, `compress_wheel` is exposed readable and writable with a
setter, and each show routine returns the current value of the
corresponding handle field. -/
theorem sysfs_attribute_modes :
    (dev_attr_enable.mode &&& 0o444 = 0o444 ∧ dev_attr_enable.mode &&& 0o222 = 0 ∧
      dev_attr_enable.store_fn = none) ∧
    (dev_attr_offline.mode &&& 0o444 = 0o444 ∧ dev_attr_offline.mode &&& 0o222 = 0 ∧
      dev_attr_offline.store_fn = none) ∧
    (dev_attr_compress_wheel.mode &&& 0o444 = 0o444 ∧
      dev_attr_compress_wheel.mode &&& 0o200 = 0o200 ∧
      dev_attr_compress_wheel.store_fn.isSome = true) ∧
    (∀ t, dev_attr_enable.show_fn t = t.enable) ∧
    (∀ t, dev_attr_offline.show_fn t = t.offline) ∧
    (∀ t, dev_attr_compress_wheel.show_fn t = t.compress_wheel) :=
  ⟨⟨by decide, by decide, rfl⟩, ⟨by decide, by decide, rfl⟩,
    ⟨by decide, by decide, rfl⟩, fun _ => rfl, fun _ => rfl, fun _ => rfl⟩

/-- C9: writing the `compress_wheel` attribute with a string that does not
parse as a decimal unsigned integer fails with -EINVAL and leaves the
stored field unchanged; a string parsing to v succeeds, returns the count,
and stores v truncated to 8 bits; values other than 0 and 1 are accepted —
for instance the string "5" stores 5. -/
theorem set_compress_wheel_spec (t : usb_tranzport) (s : String) :
    (strict_strtoul s = none →
      set_compress_wheel t s = (t, Except.error (-EINVAL))) ∧
    (∀ v, strict_strtoul s = some v →
      set_compress_wheel t s =
        ({ t with compress_wheel := v % 256 }, Except.ok s.length)) ∧
    (set_compress_wheel t "5").1.compress_wheel = 5 := by
  refine ⟨?_, ?_, ?_⟩
  · intro h
    simp [set_compress_wheel, h]
  · intro v h
    simp [set_compress_wheel, h]
  · rfl

/-- C9 witness: the string "zz" is rejected with -EINVAL and leaves the
field untouched; the string "300" followed by a newline parses to 300 and
stores 300 mod 256 = 44, a value other than 0 and 1 accepted despite the
attribute being documented as a bool. -/
theorem set_compress_wheel_spec_witness :
    strict_strtoul "zz" = none ∧
      set_compress_wheel tranzport0 "zz" = (tranzport0, Except.error (-EINVAL)) ∧
      strict_strtoul "300\n" = some 300 ∧
      set_compress_wheel tranzport0 "300\n" =
        ({ tranzport0 with compress_wheel := 300 % 256 }, Except.ok "300\n".length) :=
  ⟨rfl, (set_compress_wheel_spec tranzport0 "zz").1 rfl, rfl,
    (set_compress_wheel_spec tranzport0 "300\n").2.1 300 rfl⟩

/-- C10: `usb_tranzport_abort_transfers` modifies at most the
`interrupt_in_running` flag of the handle, clearing it to 0, and leaves
every other handle field unchanged; calling it a second time in succession
has no further effect on the handle's fields. -/
theorem abort_transfers_frame (dev : usb_tranzport) :
    (usb_tranzport_abort_transfers dev).1 = { dev with interrupt_in_running := 0 } ∧
      (usb_tranzport_abort_transfers (usb_tranzport_abort_transfers dev).1).1 =
        (usb_tranzport_abort_transfers dev).1 := by
  obtain ⟨i, oc, rbuf, v1, v2, ir, idn, w1, w2, ob, en, off, cw⟩ := dev
  by_cases h : ir = 0
  · subst h
    exact ⟨by simp [usb_tranzport_abort_transfers],
      by simp [usb_tranzport_abort_transfers]⟩
  · exact ⟨by simp [usb_tranzport_abort_transfers, h],
      by simp [usb_tranzport_abort_transfers, h]⟩

/-- C3: an inbound completion with a device-gone status (-ENOENT,
-ECONNRESET or -ESHUTDOWN) makes the callback stop resubmitting (quiesce)
and mark the handle quiescent; any other nonzero status makes it resubmit
immediately, with no backoff and no retry cap — after any number n of
consecutive transient-error completions it still resubmits. -/
theorem callback_status_dispatch (dev : usb_tranzport) (status : Int)
    (len : Nat) (f : tranzport_cmd) :
    ((status = -ENOENT ∨ status = -ECONNRESET ∨ status = -ESHUTDOWN) →
      (usb_tranzport_interrupt_in_callback dev status len f).action =
          CallbackAction.quiesce ∧
        (usb_tranzport_interrupt_in_callback dev status len f).dev.interrupt_in_done = 1) ∧
    (status ≠ 0 → ¬(status = -ENOENT ∨ status = -ECONNRESET ∨ status = -ESHUTDOWN) →
      ∀ n, (usb_tranzport_interrupt_in_callback
          (callbackIter status len f n dev) status len f).action =
        CallbackAction.resubmit) := by
  constructor
  · intro h
    have hnz : status ≠ 0 := by
      rcases h with h | h | h <;> rw [h] <;> decide
    constructor
    · simp [usb_tranzport_interrupt_in_callback, hnz, h]
    · simp [usb_tranzport_interrupt_in_callback, hnz, h]
  · intro hnz hng n
    simp [usb_tranzport_interrupt_in_callback, hnz, hng]

/-- C3 witness: status -2 (-ENOENT) quiesces and marks the handle done;
status -71 (a transient transport error) still resubmits after five
consecutive transient completions. -/
theorem callback_status_dispatch_witness :
    ((-2 : Int) = -ENOENT ∨ (-2 : Int) = -ECONNRESET ∨ (-2 : Int) = -ESHUTDOWN) ∧
      ((usb_tranzport_interrupt_in_callback tranzport0 (-2) 8 default).action =
          CallbackAction.quiesce ∧
        (usb_tranzport_interrupt_in_callback tranzport0 (-2) 8 default).dev.interrupt_in_done
          = 1) ∧
      (-71 : Int) ≠ 0 ∧
      ¬((-71 : Int) = -ENOENT ∨ (-71 : Int) = -ECONNRESET ∨ (-71 : Int) = -ESHUTDOWN) ∧
      (usb_tranzport_interrupt_in_callback
          (callbackIter (-71) 8 default 5 tranzport0) (-71) 8 default).action =
        CallbackAction.resubmit :=
  ⟨by decide, (callback_status_dispatch tranzport0 (-2) 8 default).1 (by decide),
    by decide, by decide,
    (callback_status_dispatch tranzport0 (-71) 8 default).2 (by decide) (by decide) 5⟩

/-- C4: a zero-status inbound completion whose actual length is not 8 bytes
logs a warning and the frame is discarded — the ring buffer is unchanged,
nothing is pushed — and processing continues: the callback still resubmits
the inbound transfer. -/
theorem callback_bad_length_discards (dev : usb_tranzport) (len : Nat)
    (f : tranzport_cmd) (hlen : len ≠ 8) :
    (usb_tranzport_interrupt_in_callback dev 0 len f).warned = true ∧
      (usb_tranzport_interrupt_in_callback dev 0 len f).dev.ring_buffer =
        dev.ring_buffer ∧
      (usb_tranzport_interrupt_in_callback dev 0 len f).action =
        CallbackAction.resubmit := by
  refine ⟨?_, ?_, ?_⟩ <;> simp [usb_tranzport_interrupt_in_callback, hlen]

/-- C4 witness: a 7-byte completion is flagged, leaves the ring buffer of
the concrete handle unchanged, and the callback still resubmits. -/
theorem callback_bad_length_discards_witness :
    (7 : Nat) ≠ 8 ∧
      ((usb_tranzport_interrupt_in_callback tranzport0 0 7 default).warned = true ∧
        (usb_tranzport_interrupt_in_callback tranzport0 0 7 default).dev.ring_buffer =
          tranzport0.ring_buffer ∧
        (usb_tranzport_interrupt_in_callback tranzport0 0 7 default).action =
          CallbackAction.resubmit) :=
  ⟨by decide, callback_bad_length_discards tranzport0 7 default (by decide)⟩

/-- C1: teardown cancels the outstanding asynchronous transfers and wakes
every blocked reader and writer with an error: after teardown neither the
reader nor the writer is blocked, a blocked reader ends with a
device-unavailable error, a blocked writer likewise, the inbound-loop flag
is cleared, and an in-flight inbound or outbound urb is killed. -/
theorem teardown_unblocks (s : TranzSys) :
    (s.reader = ProcState.blocked → (teardown s).1.reader = ProcState.doneErr) ∧
      (s.writer = ProcState.blocked → (teardown s).1.writer = ProcState.doneErr) ∧
      (teardown s).1.reader ≠ ProcState.blocked ∧
      (teardown s).1.writer ≠ ProcState.blocked ∧
      (teardown s).1.dev.interrupt_in_running = 0 ∧
      (s.dev.interrupt_in_running ≠ 0 ∧ s.dev.intf = true → (teardown s).2.1 = true) ∧
      (s.dev.interrupt_out_busy ≠ 0 ∧ s.dev.intf = true → (teardown s).2.2 = true) := by
  obtain ⟨dev, rd, wr⟩ := s
  obtain ⟨i, oc, rbuf, v1, v2, ir, idn, w1, w2, ob, en, off, cw⟩ := dev
  by_cases hir : ir = 0 <;> by_cases hob : ob = 0 <;> cases rd <;> cases wr <;>
    simp [teardown, wake_waiters, read_check, write_check,
      usb_tranzport_abort_transfers, hir, hob]

/-- C1 witness: on the concrete system with a blocked reader, a blocked
writer, a running inbound loop and a busy outbound transfer, teardown ends
both calls with an error and kills both urbs. -/
theorem teardown_unblocks_witness :
    sys0.reader = ProcState.blocked ∧ sys0.writer = ProcState.blocked ∧
      (teardown sys0).1.reader = ProcState.doneErr ∧
      (teardown sys0).1.writer = ProcState.doneErr ∧
      (teardown sys0).2.1 = true ∧ (teardown sys0).2.2 = true :=
  ⟨rfl, rfl, (teardown_unblocks sys0).1 rfl, (teardown_unblocks sys0).2.1 rfl,
    (teardown_unblocks sys0).2.2.2.2.2.1 ⟨by decide, rfl⟩,
    (teardown_unblocks sys0).2.2.2.2.2.2 ⟨by decide, rfl⟩⟩

end Tranzport
